import Mathlib

/-!
Verification of the `naur` derive-macro expander (`src/impl/src/expand.rs`).

The expander consumes a validated model of one Rust type definition
(a struct or an enum of variants, each a list of fields carrying role
attributes) and emits: an `std::error::Error` implementation
(`source` + `provide`), a `Display` implementation, `From` conversion
constructors, and per-type/per-variant `Throws` builder traits.

This file gives a shallow embedding of that expander.  Syntactic notions
(`syn::Type`, members, attributes) are embedded as inductive data; each
generated implementation is embedded as a Lean function giving the
runtime semantics of the emitted code, translated branch-for-branch from
the `quote!` fragments in `expand.rs`.  Helper accessors that live in the
crate's `ast.rs` (not part of the sources under audit) are modelled from
the specification and marked as such in their doc comments.
-/

namespace Naur

set_option autoImplicit false

universe u

/-! ## Model of `syn` types (the fragment inspected by `expand.rs`)

`expand.rs` looks at a declared field type only through
`type_parameter_of_option` (path whose last segment is `Option` with one
angle-bracketed type argument) and, via the modelled `backtrace_field`,
through the last segment's identifier.  We embed exactly that shape:
a type is a path (non-empty in real `syn`; emptiness is tolerated by the
model and classified as non-optional) of segments, each an identifier
with arguments that are absent, angle-bracketed, or parenthesized. -/

/-- A generic argument inside angle brackets: a type, or not a type
(lifetime, const, constraint — `expand.rs` only distinguishes
`GenericArgument::Type` from the rest). -/
inductive GenArg (τ : Type u) : Type u where
  | type (t : τ)
  | nonType
  deriving Repr

/-- Path arguments of one segment: `PathArguments::None`,
`PathArguments::AngleBracketed`, `PathArguments::Parenthesized`. -/
inductive PathArgumentsOf (τ : Type u) : Type u where
  | noArgs
  | angleBracketed (args : List (GenArg τ))
  | parenthesized
  deriving Repr

/-- One path segment: identifier plus arguments. -/
structure PathSegmentOf (τ : Type u) : Type u where
  ident : String
  args : PathArgumentsOf τ
  deriving Repr

/-- The fragment of `syn::Type` that `expand.rs` inspects. -/
inductive RustType : Type where
  | path (segments : List (PathSegmentOf RustType))
  | other
  deriving Repr

abbrev PathSegment := PathSegmentOf RustType
abbrev PathArguments := PathArgumentsOf RustType

/-- Embedding of `type_parameter_of_option` (expand.rs lines 729-753):
the inner type when `ty` is a path whose final segment is the identifier
`Option` carrying exactly one angle-bracketed argument that is a type;
`none` otherwise.  (The source unwraps the last segment of a `syn::Path`,
which is never empty; the model returns `none` on an empty path.) -/
def type_parameter_of_option (ty : RustType) : Option RustType :=
  match ty with
  | RustType.other => none
  | RustType.path segments =>
    match segments.getLast? with
    | none => none
    | some last =>
      if last.ident = "Option" then
        match last.args with
        | PathArgumentsOf.angleBracketed args =>
          match args with
          | [GenArg.type arg] => some arg
          | _ => none
        | _ => none
      else none

/-- Embedding of `type_is_option` (expand.rs lines 720-722). -/
def type_is_option (ty : RustType) : Bool :=
  (type_parameter_of_option ty).isSome

/-- Embedding of `unoptional_type` (expand.rs lines 724-727): the inner
type of an `Option`, or the type itself. -/
def unoptional_type (ty : RustType) : RustType :=
  (type_parameter_of_option ty).getD ty

/-! ## Model of members, attributes and fields (`ast.rs` / `attr.rs`) -/

/-- A `syn::Member`: a named field or a tuple index. -/
inductive Member : Type where
  | named (ident : String)
  | unnamed (index : Nat)
  deriving DecidableEq, Repr

/-- Role attributes attached to one field: `#[source]`, `#[from]`,
`#[backtrace]`.  (Transparency is a struct/variant level attribute.) -/
structure Attrs : Type where
  sourceAttr : Bool
  fromAttr : Bool
  backtraceAttr : Bool
  deriving DecidableEq, Repr

/-- A validated field: its member reference, declared type, and role
attributes.  `member = Member.named n` exactly when the original field
has an identifier (`field.original.ident` in the source). -/
structure Field : Type where
  member : Member
  ty : RustType
  attrs : Attrs
  deriving Repr

/-- Modelled from the spec: `source_field` of `ast.rs` designates the
causal field — the field tagged `is_from` or `is_source`, else the field
with the implicit name `source` (spec section 3, "tagged `is_source`
directly or via `is_from`/the implicit name `source`"). -/
def source_field (fields : List Field) : Option Field :=
  match fields.find? (fun f => f.attrs.fromAttr || f.attrs.sourceAttr) with
  | some f => some f
  | none => fields.find? (fun f => decide (f.member = Member.named "source"))

/-- Modelled from the spec: `from_field` of `ast.rs` — the field tagged
`is_from` (spec section 4.5, "fires when a field is marked `is_from`"). -/
def from_field (fields : List Field) : Option Field :=
  fields.find? (fun f => f.attrs.fromAttr)

/-- Recognizer for a declared type whose final path segment is the bare
identifier `Backtrace`.  Needed because the in-source guard at
expand.rs line 362 (`backtrace_field.attrs.backtrace.is_none()`)
distinguishes backtrace fields that carry no explicit attribute, so the
modelled `backtrace_field` must also detect trace fields by type. -/
def type_is_backtrace (ty : RustType) : Bool :=
  match ty with
  | RustType.path segments =>
    match segments.getLast? with
    | some last =>
      last.ident = "Backtrace" &&
        (match last.args with
         | PathArgumentsOf.noArgs => true
         | _ => false)
    | none => false
  | RustType.other => false

/-- Modelled from the spec: `backtrace_field` of `ast.rs` — the field
tagged `is_backtrace` (spec section 3), else a field whose declared type
is recognized as a trace representation (required for the guard at
expand.rs line 362 to be reachable). -/
def backtrace_field (fields : List Field) : Option Field :=
  match fields.find? (fun f => f.attrs.backtraceAttr) with
  | some f => some f
  | none => fields.find? (fun f => type_is_backtrace f.ty)

/-- Modelled from the spec: `distinct_backtrace_field` of `ast.rs` — the
backtrace field, unless it coincides with the `is_from` field (spec
section 4.5, "if a distinct backtrace field exists"). -/
def distinct_backtrace_field (fields : List Field) : Option Field :=
  match backtrace_field fields with
  | none => none
  | some bt =>
    match from_field fields with
    | some ff => if ff.member = bt.member then none else some bt
    | none => some bt

/-! ## Model of the validated input (`ast.rs` `Struct` / `Variant`) -/

/-- Piece of a display template: literal text, or interpolation of one
field's value (by name or position).  Modelled from the spec: the
template machinery lives in `attr.rs`; section 4.4 — "the template's
literal text is rendered with named/positional field bindings". -/
inductive TemplatePiece : Type where
  | lit (s : String)
  | interp (m : Member)
  deriving Repr

/-- Kind of one generic parameter of the input type, as distinguished by
`syn::Generics::type_params` (expand.rs lines 280, 538). -/
inductive GenericParam : Type where
  | lifetimeParam
  | typeParam
  | constParam
  deriving DecidableEq, Repr

/-- A validated struct input. -/
structure Struct : Type where
  ident : String
  generics : List GenericParam
  transparent : Bool
  display : Option (List TemplatePiece)
  fields : List Field
  deriving Repr

/-- One validated enum variant. -/
structure Variant : Type where
  ident : String
  transparent : Bool
  display : Option (List TemplatePiece)
  fields : List Field
  deriving Repr

/-! ## Runtime values of generated code

The generated implementations are embedded as functions over an abstract
valuation of the fields of one value of the annotated type.  Each field
holds an abstract error value: its identity viewed through the
`as_dyn_error` adaptation, and the result of calling
`std::error::Error::source` on it.  For a field whose declared type is
classified as `Option`, the valuation additionally records whether the
stored value is `Some`; the generated code never reads presence for a
non-`Option` field. -/

/-- Abstract runtime value held in one field. -/
structure ErrValue : Type where
  dynError : Nat
  sourceOf : Option Nat
  deriving DecidableEq, Repr

/-- Valuation of the fields of one value of the annotated type. -/
structure Valuation : Type where
  value : Member → ErrValue
  isSomeAt : Member → Bool

/-! ## Cause lookup: the generated `source` method

Embeds the `source` body generated by `impl_struct` (expand.rs lines
26-62) and the per-variant match arms generated by `impl_enum` (lines
304-354).  When no body is generated (no causal field, no transparency)
the behavior observed by callers is the provided default of
`std::error::Error::source`, which returns `None`; the embedding folds
that default in. -/

/-- Semantics of the generated (or defaulted) cause lookup for a struct. -/
def struct_source (s : Struct) (vals : Valuation) : Option Nat :=
  if s.transparent then
    match s.fields.head? with
    | some f => (vals.value f.member).sourceOf
    | none => none
  else
    match source_field s.fields with
    | some f =>
      if type_is_option f.ty then
        (if vals.isSomeAt f.member then some (vals.value f.member).dynError else none)
      else some (vals.value f.member).dynError
    | none => none

/-- Semantics of one variant's match arm in the generated enum cause
lookup (expand.rs lines 305-341). -/
def enum_source_arm (v : Variant) (vals : Valuation) : Option Nat :=
  if v.transparent then
    match v.fields.head? with
    | some f => (vals.value f.member).sourceOf
    | none => none
  else
    match source_field v.fields with
    | some f =>
      if type_is_option f.ty then
        (if vals.isSomeAt f.member then some (vals.value f.member).dynError else none)
      else some (vals.value f.member).dynError
    | none => none

/-! ## Trace provision: the generated `provide` method

Embeds the `provide` body generated by `impl_struct` (expand.rs lines
64-114) and the per-variant arms of `impl_enum` (lines 356-458).  The
observable behavior is the ordered list of registrations performed
against the `Request`: forwarding the request to the causal field's own
`thiserror_provide`, or offering the directly stored backtrace via
`provide_ref`. -/

/-- One registration performed by the generated `provide` body. -/
inductive ProvideEvent : Type where
  | forwarded (m : Member)
  | offered (m : Member)
  deriving DecidableEq, Repr

/-- The forward-to-source step: skipped when the causal field is
`Option`-typed and absent (expand.rs lines 69-79). -/
def source_provide_events (src : Field) (vals : Valuation) : List ProvideEvent :=
  if type_is_option src.ty then
    (if vals.isSomeAt src.member then [ProvideEvent.forwarded src.member] else [])
  else [ProvideEvent.forwarded src.member]

/-- The offer-own-backtrace step: skipped when the backtrace field is
`Option`-typed and absent (expand.rs lines 82-92, 98-107). -/
def backtrace_offer_events (bt : Field) (vals : Valuation) : List ProvideEvent :=
  if type_is_option bt.ty then
    (if vals.isSomeAt bt.member then [ProvideEvent.offered bt.member] else [])
  else [ProvideEvent.offered bt.member]

/-- Semantics of the generated `provide` body for a struct (expand.rs
lines 64-114); `[]` when no backtrace field exists and no method is
generated. -/
def struct_provide (fields : List Field) (vals : Valuation) : List ProvideEvent :=
  match backtrace_field fields with
  | none => []
  | some bt =>
    match source_field fields with
    | some src =>
      source_provide_events src vals ++
        (if src.member = bt.member then [] else backtrace_offer_events bt vals)
    | none => backtrace_offer_events bt vals

/-- Semantics of one variant's arm in the generated enum `provide`
(expand.rs lines 358-446), including the guard order of the source
match: a backtrace field lacking an explicit attribute combined with a
causal field forwards and offers; an attributed backtrace field equal to
the causal member only forwards; any other backtrace field only offers. -/
def enum_provide_arm (v : Variant) (vals : Valuation) : List ProvideEvent :=
  match backtrace_field v.fields, source_field v.fields with
  | some bt, some src =>
    if bt.attrs.backtraceAttr = false then
      source_provide_events src vals ++ backtrace_offer_events bt vals
    else if bt.member = src.member then
      source_provide_events src vals
    else
      backtrace_offer_events bt vals
  | some bt, none => backtrace_offer_events bt vals
  | none, _ => []

/-! ## Display: the generated `Display::fmt`

Embeds the display body of `impl_struct` (expand.rs lines 116-135) and
the per-variant arms of `impl_enum` (lines 460-518).  The semantic
parameter `fd` gives, for each field, the text produced by formatting
that field's value with the field's own `Display` implementation. -/

/-- Render a display template under field bindings.  Modelled from the
spec (section 4.4): the literal text with each interpolation replaced by
the interpolated field's own rendering. -/
def render_template (pieces : List TemplatePiece) (fd : Member → String) : String :=
  String.join (pieces.map (fun p =>
    match p with
    | TemplatePiece.lit s => s
    | TemplatePiece.interp m => fd m))

/-- Semantics of the generated struct `Display::fmt` body: transparency
forwards verbatim to the sole field, else a template renders, else no
implementation is generated (`none`). -/
def struct_display (s : Struct) (fd : Member → String) : Option String :=
  if s.transparent then
    match s.fields.head? with
    | some f => some (fd f.member)
    | none => none
  else
    match s.display with
    | some pieces => some (render_template pieces fd)
    | none => none

/-- Semantics of one variant's arm in the generated enum `Display::fmt`
(expand.rs lines 474-501): a declared template renders; a variant with
no template forwards to its first field's own `Display` (the source
indexes `fields[0]`, so validation guarantees the field exists; an empty
field list yields `none` in the model). -/
def variant_display_arm (v : Variant) (fd : Member → String) : Option String :=
  match v.display with
  | some pieces => some (render_template pieces fd)
  | none =>
    match v.fields.head? with
    | some f => some (fd f.member)
    | none => none

/-! ## Conversion constructor: the generated `From` implementation

Embeds `from_initializer` (expand.rs lines 695-718) and its use in
`impl_struct` (lines 156-169) and `impl_enum` (lines 520-535).  The
observable content of the generated `fn from(source: #from) -> Self` is
the argument type and the ordered member initializer list. -/

/-- Initializer expression stored into one member by the generated
conversion. -/
inductive InitExpr : Type where
  | arg
  | someArg
  | captureFrom
  | someCapture
  deriving DecidableEq, Repr

/-- Embedding of `from_initializer` (expand.rs lines 695-718): the
`is_from` member receives the constructor argument (wrapped in `Some`
when its declared type is `Option`); the distinct backtrace member, when
present, receives a freshly captured trace (`Some(Backtrace::capture())`
when `Option`-typed, `From::from(Backtrace::capture())` otherwise). -/
def from_initializer (fromF : Field) (backtraceF : Option Field) : List (Member × InitExpr) :=
  (fromF.member, if type_is_option fromF.ty then InitExpr.someArg else InitExpr.arg) ::
    (match backtraceF with
     | some bt =>
       [(bt.member,
         if type_is_option bt.ty then InitExpr.someCapture else InitExpr.captureFrom)]
     | none => [])

/-- Semantics of the generated `From` implementation for a field list
(struct, expand.rs lines 156-169; per enum variant, lines 520-535):
the argument type is the `Option`-unwrapped declared type of the
`is_from` field, and the body is `from_initializer` applied to that
field and the distinct backtrace field. -/
def from_impl (fields : List Field) : Option (RustType × List (Member × InitExpr)) :=
  (from_field fields).map (fun ff =>
    (unoptional_type ff.ty, from_initializer ff (distinct_backtrace_field fields)))

/-! ## Throw builder traits

Embeds the `variant_traits_impl` blocks of `impl_struct` (expand.rs
lines 171-277) and `impl_enum` (lines 545-656).  The generated trait
carries `throw_<name>` and (when extra fields exist) `throw_<name>_with`
methods on `Result<__RETURN, #source_ty>`; both map the failure through
construction of the annotated type. -/

/-- Embedding of the `is_source` closure (expand.rs lines 198-206 and
575-583): a field is the causal one when it carries the `from` or
`source` attribute, or is named `source` while the designated source
field is this very member. -/
def is_source (source : Field) (f : Field) : Bool :=
  if f.attrs.fromAttr || f.attrs.sourceAttr then
    true
  else
    match f.member with
    | Member.named ident => ident = "source" && decide (source.member = f.member)
    | _ => false

/-- The extra (non-causal) fields, in declaration order (expand.rs lines
215, 592: `fields.iter().filter(|f| !is_source(f))`). -/
def extra_fields (source : Field) (fields : List Field) : List Field :=
  fields.filter (fun f => !is_source source f)

/-- Whether the deferred `throw_<name>_with` method is emitted
(expand.rs lines 249-259, 626-636: `(!params.is_empty()).then(..)`,
with one parameter per extra field), given that a causal field exists. -/
def with_method_emitted (source : Field) (fields : List Field) : Bool :=
  !(extra_fields source fields).isEmpty

/-- A constructed value of the annotated type, as built by the generated
`new_struct` expression (expand.rs lines 236-247, 613-624): a named
member-initializer list when the causal field is named, a positional
tuple otherwise. -/
inductive Constructed (α : Type u) : Type u where
  | named (assigns : List (Member × α))
  | positional (vals : List α)
  deriving Repr

/-- Embedding of the `new_struct` expression: with a named causal field,
`#ty { #source_field: e, #fields }` assigns the failure to the causal
member and each extra member its same-named argument; with an unnamed
causal field, `#ty (e, #fields)` places the failure first and then the
extra arguments in order. -/
def new_struct {α : Type u} (source : Field) (fields : List Field) (e : α)
    (vs : List α) : Constructed α :=
  match source.member with
  | Member.named _ =>
    Constructed.named ((source.member, e) ::
      ((extra_fields source fields).map (fun f => f.member)).zip vs)
  | Member.unnamed _ => Constructed.positional (e :: vs)

/-- Reading one member out of a constructed value. -/
def Constructed.getMember {α : Type u} (c : Constructed α) (m : Member) : Option α :=
  match c, m with
  | Constructed.named assigns, m =>
    (assigns.find? (fun p => decide (p.1 = m))).map (fun p => p.2)
  | Constructed.positional vs, Member.unnamed i => vs.get? i
  | Constructed.positional _, Member.named _ => none

/-- Semantics of the generated eager `throw_<name>` method (expand.rs
lines 267-271, 644-648): `self.map_err(|e| new_struct)` with the extra
field values supplied as arguments; `none` when no causal field exists
and no trait is generated. -/
def throw_method {α β : Type} (fields : List Field) (r : Except α β)
    (vs : List α) : Option (Except (Constructed α) β) :=
  (source_field fields).map (fun src =>
    r.mapError (fun e => new_struct src fields e vs))

/-- Semantics of the generated deferred `throw_<name>_with` method
(expand.rs lines 252-259, 629-636): `self.map_err(|e| { let (..) = f();
new_struct })` — the supplier runs inside the failure mapping only. -/
def throw_with_method {α β : Type} (fields : List Field) (r : Except α β)
    (f : Unit → List α) : Option (Except (Constructed α) β) :=
  (source_field fields).map (fun src =>
    r.mapError (fun e => new_struct src fields e (f ())))

/-! ## Derived names

Embeds the identifier derivation of `impl_struct` (expand.rs lines
171-185) and `impl_enum` (lines 558-573).  The source iterates the
identifier's characters, inserting an underscore before every uppercase
character that is not the first and pushing the ASCII-lowercased
character, then applies `trim_end_matches("_error")`.  Rust identifiers
are modelled as ASCII strings, on which Rust's `char::is_uppercase` and
`char::to_ascii_lowercase` coincide with `Char.isUpper` / `Char.toLower`. -/

/-- Lower-snake-casing loop (expand.rs lines 174-180); the flag records
whether the current character is the first one (`i > 0` in the source). -/
def snake_case_aux : Bool → List Char → List Char
  | _, [] => []
  | isFirst, c :: rest =>
    (if !isFirst && c.isUpper then ['_', c.toLower] else [c.toLower]) ++
      snake_case_aux false rest

/-- Lower-snake-casing of an identifier. -/
def snake_case (ident : String) : String :=
  (snake_case_aux true ident.toList).asString

/-- The suffix pattern handed to `trim_end_matches`. -/
def error_suffix : List Char := "_error".toList

/-- Fuel-driven loop of Rust's `str::trim_end_matches("_error")`, which
removes the suffix repeatedly while it matches.  Every round removes six
characters, so fuel equal to the string length always reaches the fixed
point. -/
def trim_end_error_aux : Nat → List Char → List Char
  | 0, s => s
  | n + 1, s =>
    if error_suffix.isSuffixOf s then
      trim_end_error_aux n (s.take (s.length - 6))
    else s

/-- Embedding of `snake.trim_end_matches("_error")` (expand.rs lines
181, 569). -/
def trim_end_matches_error (s : List Char) : List Char :=
  trim_end_error_aux s.length s

/-- The derived base method name (expand.rs lines 173-183, 561-571):
lower-snake-case then trim all trailing `_error` suffixes. -/
def method_name (ident : String) : String :=
  (trim_end_matches_error (snake_case_aux true ident.toList)).asString

/-- Name of the eager builder method, `format_ident!("throw_{}", ..)`
(expand.rs lines 184, 572). -/
def throw_method_name (ident : String) : String :=
  "throw_" ++ method_name ident

/-- Name of the deferred builder method, `format_ident!("throw_{}_with", ..)`
(expand.rs lines 185, 573). -/
def with_method_name (ident : String) : String :=
  "throw_" ++ method_name ident ++ "_with"

/-- Trait name for a struct, `format_ident!("{}Throws", input.ident)`
(expand.rs line 172). -/
def struct_trait_name (ident : String) : String :=
  ident ++ "Throws"

/-- Trait name for an enum variant,
`format_ident!("{}{}Throws", input.ident, variant_ident)`
(expand.rs line 560). -/
def variant_trait_name (tyIdent variantIdent : String) : String :=
  tyIdent ++ variantIdent ++ "Throws"

/-! ## Bounds on `Self` in the generated error implementation

Embeds expand.rs lines 279-285 and 537-543: when
`input.generics.type_params().next().is_some()` the expander inserts
`Self: Debug` and `Self: Display` into the inferred bounds of the
generated `std::error::Error` implementation; otherwise it inserts
nothing for `Self`. -/

/-- A bound placed on the enclosing type itself. -/
inductive SelfBound : Type where
  | debugBound
  | displayBound
  deriving DecidableEq, Repr

/-- The `Self` bounds inserted into the error implementation's inferred
where-clause.  `type_params()` iterates only the type parameters of the
generics, skipping lifetime and const parameters. -/
def error_impl_self_bounds (generics : List GenericParam) : List SelfBound :=
  if generics.any (fun p => decide (p = GenericParam.typeParam)) then
    [SelfBound.debugBound, SelfBound.displayBound]
  else []

/-! ## Concrete instances used in counterexamples and witnesses

These mirror the shapes exercised by the repository's own test file
(`src/tests/test_variant_traits.rs`) plus the corner shapes the claims
quantify over. -/

/-- No role attributes. -/
def noAttrs : Attrs := { sourceAttr := false, fromAttr := false, backtraceAttr := false }

/-- Only the `#[source]` attribute. -/
def sourceOnlyAttrs : Attrs := { sourceAttr := true, fromAttr := false, backtraceAttr := false }

/-- Only the `#[from]` attribute. -/
def fromOnlyAttrs : Attrs := { sourceAttr := false, fromAttr := true, backtraceAttr := false }

/-- Only the `#[backtrace]` attribute. -/
def backtraceOnlyAttrs : Attrs := { sourceAttr := false, fromAttr := false, backtraceAttr := true }

/-- The declared type `String`. -/
def stringTy : RustType := RustType.path [{ ident := "String", args := PathArgumentsOf.noArgs }]

/-- The declared type `i32`. -/
def i32Ty : RustType := RustType.path [{ ident := "i32", args := PathArgumentsOf.noArgs }]

/-- A declared inner error type `InnerErr`. -/
def innerErrTy : RustType := RustType.path [{ ident := "InnerErr", args := PathArgumentsOf.noArgs }]

/-- The declared type `Backtrace`. -/
def backtraceTy : RustType := RustType.path [{ ident := "Backtrace", args := PathArgumentsOf.noArgs }]

/-- The declared type `Option<InnerErr>`. -/
def optionInnerErrTy : RustType :=
  RustType.path [{ ident := "Option", args := PathArgumentsOf.angleBracketed [GenArg.type innerErrTy] }]

/-- Field `msg: String`. -/
def msgField : Field := { member := Member.named "msg", ty := stringTy, attrs := noAttrs }

/-- Field `value: i32`. -/
def valueField : Field := { member := Member.named "value", ty := i32Ty, attrs := noAttrs }

/-- Field `source: InnerErr` (causal via the implicit name). -/
def sourceNamedField : Field :=
  { member := Member.named "source", ty := innerErrTy, attrs := noAttrs }

/-- Field `backtrace: Backtrace` carrying the explicit attribute. -/
def btNamedField : Field :=
  { member := Member.named "backtrace", ty := backtraceTy, attrs := backtraceOnlyAttrs }

/-- Field `source: InnerErr` carrying `#[from]`. -/
def fromNamedField : Field :=
  { member := Member.named "source", ty := innerErrTy, attrs := fromOnlyAttrs }

/-- The record of spec scenario 1: `{msg: String, value: i32, source: InnerErr}`. -/
def basicFields : List Field := [msgField, valueField, sourceNamedField]

/-- Struct input for scenario 1 with a literal template. -/
def basicStruct : Struct :=
  { ident := "InvalidIoError", generics := [], transparent := false,
    display := some [TemplatePiece.lit "basic error msg: ",
      TemplatePiece.interp (Member.named "msg")],
    fields := basicFields }

/-- Tuple fields with the causal field declared second:
`(String, #[source] InnerErr)`. -/
def tupleSwappedFields : List Field :=
  [ { member := Member.unnamed 0, ty := stringTy, attrs := noAttrs },
    { member := Member.unnamed 1, ty := innerErrTy, attrs := sourceOnlyAttrs } ]

/-- Tuple fields with the causal field declared first:
`(#[source] InnerErr, String)` — spec scenario 2's `Variant2`. -/
def tupleFirstFields : List Field :=
  [ { member := Member.unnamed 0, ty := innerErrTy, attrs := sourceOnlyAttrs },
    { member := Member.unnamed 1, ty := stringTy, attrs := noAttrs } ]

/-- Fields with an implicit-name causal field and a distinct explicitly
attributed backtrace field. -/
def srcAndAttrBtFields : List Field := [sourceNamedField, btNamedField]

/-- Fields with a `#[from]` causal field and a distinct backtrace field. -/
def fromAndBtFields : List Field := [fromNamedField, btNamedField]

/-- Enum variant carrying `srcAndAttrBtFields`. -/
def attrBtVariant : Variant :=
  { ident := "V", transparent := false, display := none, fields := srcAndAttrBtFields }

/-- A transparent single-field struct (spec scenario 3). -/
def transparentStruct : Struct :=
  { ident := "ErrKind", generics := [], transparent := true, display := none,
    fields := [ { member := Member.unnamed 0, ty := innerErrTy, attrs := noAttrs } ] }

/-- A transparent single-field enum variant. -/
def transparentVariant : Variant :=
  { ident := "Var", transparent := true, display := none,
    fields := [ { member := Member.unnamed 0, ty := innerErrTy, attrs := noAttrs } ] }

/-- A valuation where every member is present; the member named `source`
holds an error whose `as_dyn_error` identity is `7` and whose own cause
is `3`; every other member holds identity `1` with no cause. -/
def sampleVals : Valuation :=
  { value := fun m =>
      match m with
      | Member.named "source" => { dynError := 7, sourceOf := some 3 }
      | _ => { dynError := 1, sourceOf := none },
    isSomeAt := fun _ => true }

/-! ## Shared helper lemmas -/

/-- Stripping loop invariant: with fuel at least a sixth of the length,
the result of `trim_end_error_aux` never retains a trailing `_error`. -/
theorem trim_end_error_aux_no_suffix (n : Nat) (s : List Char)
    (h : s.length ≤ 6 * n) :
    error_suffix.isSuffixOf (trim_end_error_aux n s) = false := by
  induction n generalizing s with
  | zero =>
    interval_cases hl : s.length
    · have hs : s = [] := List.length_eq_zero.mp hl
      subst hs
      decide
  | succ n ih =>
    rw [trim_end_error_aux]
    by_cases hsuf : error_suffix.isSuffixOf s = true
    · rw [if_pos hsuf]
      apply ih
      have hle : 6 ≤ s.length := by
        have := (List.isSuffixOf_iff_suffix.mp hsuf).length_le
        simpa [error_suffix] using this
      have : (s.take (s.length - 6)).length = s.length - 6 := by
        simp [List.length_take]
      omega
    · rw [if_neg hsuf]
      exact Bool.eq_false_iff.mpr hsuf

/-- The derived base name carries no trailing `_error`. -/
theorem trim_end_matches_error_no_suffix (s : List Char) :
    error_suffix.isSuffixOf (trim_end_matches_error s) = false := by
  apply trim_end_error_aux_no_suffix
  omega

/-- Lookup by key in the association list built by zipping a duplicate-free
member list with a value list finds the value stored at the key's index. -/
theorem find_zip_eq_get {α : Type} (ms : List Member) (vs : List α)
    (hnd : ms.Nodup) (hl : vs.length = ms.length) (j : Nat) (m : Member)
    (hm : ms.get? j = some m) :
    ((ms.zip vs).find? (fun p => decide (p.1 = m))).map (fun p => p.2) = vs.get? j := by
  induction ms generalizing vs j with
  | nil => simp at hm
  | cons m0 ms ih =>
    cases vs with
    | nil => simp at hl
    | cons v vs =>
      cases j with
      | zero =>
        have hm0 : m0 = m := by simpa using hm
        subst hm0
        simp [List.zip_cons_cons, List.find?]
      | succ j =>
        have hm' : ms.get? j = some m := by simpa using hm
        have hmem : m ∈ ms := List.get?_mem hm'
        have hne : m0 ≠ m := fun he => (List.nodup_cons.mp hnd).1 (he ▸ hmem)
        have hl' : vs.length = ms.length := by simpa using hl
        have hrec := ih vs (List.nodup_cons.mp hnd).2 hl' j hm'
        rw [List.zip_cons_cons, List.find?_cons_of_neg]
        · exact hrec
        · simp [hne]

/-! ## C4: derived builder and trait names -/

/-- C4 counterexample: the identifier `AErrorError` lower-snake-cases to
`a_error_error`; stripping a single trailing `_error` suffix, as the
claim states, would give `a_error`, but the expander applies Rust's
`trim_end_matches("_error")`, which strips the suffix repeatedly and
yields `a`. -/
theorem naming_counterexample :
    snake_case "AErrorError" = "a_error_error"
    ∧ method_name "AErrorError" = "a"
    ∧ method_name "AErrorError" ≠ "a_error" :=
  ⟨rfl, rfl, by decide⟩

/-- C4 (amended): the derived base method name is the lower-snake-cased
identifier (an underscore before each uppercase character after the
first, characters ASCII-lowercased) with ALL trailing `_error` suffixes
removed repeatedly, so the base never retains such a suffix; the eager
method is named `throw_<base>`, the deferred one `throw_<base>_with`,
the struct capability trait `<Name>Throws` and the enum variant
capability trait `<TypeName><VariantName>Throws`. -/
theorem naming_theorem (tyIdent variantIdent : String) :
    method_name variantIdent
        = (trim_end_matches_error (snake_case variantIdent).toList).asString
    ∧ error_suffix.isSuffixOf (method_name variantIdent).toList = false
    ∧ throw_method_name variantIdent = "throw_" ++ method_name variantIdent
    ∧ with_method_name variantIdent = "throw_" ++ method_name variantIdent ++ "_with"
    ∧ struct_trait_name variantIdent = variantIdent ++ "Throws"
    ∧ variant_trait_name tyIdent variantIdent = tyIdent ++ variantIdent ++ "Throws" :=
  ⟨rfl, trim_end_matches_error_no_suffix (snake_case_aux true variantIdent.toList),
   rfl, rfl, rfl, rfl⟩

/-! ## C9: `Self` bounds of the generated error implementation -/

/-- C9 counterexample: an input whose only generic parameter is a
lifetime has at least one generic parameter, yet the expander only
consults `type_params()` and inserts no `Self: Debug` / `Self: Display`
bounds. -/
theorem self_bounds_counterexample :
    error_impl_self_bounds [GenericParam.lifetimeParam] = []
    ∧ [GenericParam.lifetimeParam] ≠ ([] : List GenericParam) :=
  ⟨rfl, by decide⟩

/-- C9 (amended): the generated error implementation's constraint clause
includes `Debug` and `Display` bounds on `Self` exactly when at least
one generic TYPE parameter exists; an input with no generic type
parameter (in particular one with no generics at all, or with only
lifetime or const parameters) gets no such bounds. -/
theorem self_bounds_iff_type_param (generics : List GenericParam) :
    (error_impl_self_bounds generics = [SelfBound.debugBound, SelfBound.displayBound]
      ↔ GenericParam.typeParam ∈ generics)
    ∧ (GenericParam.typeParam ∉ generics → error_impl_self_bounds generics = []) := by
  by_cases hm : GenericParam.typeParam ∈ generics
  · have hany : generics.any (fun p => decide (p = GenericParam.typeParam)) = true :=
      List.any_eq_true.mpr ⟨GenericParam.typeParam, hm, by simp⟩
    exact ⟨by simp [error_impl_self_bounds, hany, hm], fun h => absurd hm h⟩
  · have hany : generics.any (fun p => decide (p = GenericParam.typeParam)) = false := by
      rw [Bool.eq_false_iff]
      intro hc
      rcases List.any_eq_true.mp hc with ⟨p, hp, he⟩
      exact hm ((decide_eq_true_eq.mp he) ▸ hp)
    exact ⟨by simp [error_impl_self_bounds, hany, hm], fun _ => by
      simp [error_impl_self_bounds, hany]⟩

/-- C9 witness: a single type parameter makes both bounds appear. -/
theorem self_bounds_witness :
    error_impl_self_bounds [GenericParam.typeParam]
      = [SelfBound.debugBound, SelfBound.displayBound] :=
  (self_bounds_iff_type_param [GenericParam.typeParam]).1.mpr (by decide)

/-! ## C10: classification of `Option`-wrapped declared types -/

/-- C10: a declared type is classified as `Option`-wrapped exactly when
it is a path type whose final segment is the identifier `Option`
carrying exactly one angle-bracketed argument that is a type; every
other shape (alias or renamed-import identifiers, non-path types,
`Option` with a different argument form) is non-optional.  The
classifier `type_is_option` is the single function consulted by the
cause lookup, trace provision and conversion embeddings above. -/
theorem option_classification (ty : RustType) :
    type_is_option ty = true ↔
      ∃ segments seg inner,
        ty = RustType.path segments
        ∧ segments.getLast? = some seg
        ∧ seg.ident = "Option"
        ∧ seg.args = PathArgumentsOf.angleBracketed [GenArg.type inner] := by
  constructor
  · intro h
    unfold type_is_option type_parameter_of_option at h
    cases ty with
    | other => simp at h
    | path segments =>
      dsimp only at h
      cases hl : segments.getLast? with
      | none => rw [hl] at h; simp at h
      | some seg =>
        rw [hl] at h
        dsimp only at h
        by_cases hid : seg.ident = "Option"
        · rw [if_pos hid] at h
          cases ha : seg.args with
          | noArgs => rw [ha] at h; simp at h
          | parenthesized => rw [ha] at h; simp at h
          | angleBracketed args =>
            rw [ha] at h
            match args, h with
            | [GenArg.type inner], _ =>
              exact ⟨segments, seg, inner, rfl, hl, hid, ha⟩
        · rw [if_neg hid] at h
          simp at h
  · rintro ⟨segments, seg, inner, rfl, hl, hid, ha⟩
    unfold type_is_option type_parameter_of_option
    dsimp only
    rw [hl]
    dsimp only
    rw [if_pos hid, ha]
    rfl

/-- C10 witness: `Option<InnerErr>` is classified as optional. -/
theorem option_classification_witness : type_is_option optionInnerErrTy = true :=
  (option_classification optionInnerErrTy).mpr
    ⟨[{ ident := "Option", args := PathArgumentsOf.angleBracketed [GenArg.type innerErrTy] }],
     { ident := "Option", args := PathArgumentsOf.angleBracketed [GenArg.type innerErrTy] },
     innerErrTy, rfl, rfl, rfl, rfl⟩

/-! ## C2: the generated cause lookup -/

/-- C2: the cause lookup returns `None` when no field is causal (no body
is generated for a struct, so the trait default applies; an enum variant
with neither causal field nor transparency gets an explicit `None`
arm); otherwise it returns the causal field's value adapted as a dyn
error, first unwrapping an `Option`-typed causal field with an early
`None` when the value is absent — in the struct body and in the enum
match arms alike (expand.rs lines 41-45 and 325-329); under
transparency it returns the sole field's own cause rather than the
field itself. -/
theorem source_method_semantics (s : Struct) (v : Variant) (vals : Valuation)
    (f sf : Field) :
    (s.transparent = false → source_field s.fields = none →
      struct_source s vals = none)
    ∧ (s.transparent = false → source_field s.fields = some sf →
        type_is_option sf.ty = false →
        struct_source s vals = some (vals.value sf.member).dynError)
    ∧ (s.transparent = false → source_field s.fields = some sf →
        type_is_option sf.ty = true → vals.isSomeAt sf.member = false →
        struct_source s vals = none)
    ∧ (s.transparent = false → source_field s.fields = some sf →
        type_is_option sf.ty = true → vals.isSomeAt sf.member = true →
        struct_source s vals = some (vals.value sf.member).dynError)
    ∧ (s.transparent = true → s.fields = [f] →
        struct_source s vals = (vals.value f.member).sourceOf)
    ∧ (v.transparent = false → source_field v.fields = none →
        enum_source_arm v vals = none)
    ∧ (v.transparent = true → v.fields = [f] →
        enum_source_arm v vals = (vals.value f.member).sourceOf)
    ∧ (v.transparent = false → source_field v.fields = some sf →
        type_is_option sf.ty = false →
        enum_source_arm v vals = some (vals.value sf.member).dynError)
    ∧ (v.transparent = false → source_field v.fields = some sf →
        type_is_option sf.ty = true → vals.isSomeAt sf.member = false →
        enum_source_arm v vals = none)
    ∧ (v.transparent = false → source_field v.fields = some sf →
        type_is_option sf.ty = true → vals.isSomeAt sf.member = true →
        enum_source_arm v vals = some (vals.value sf.member).dynError) := by
  refine ⟨?_, ?_, ?_, ?_, ?_, ?_, ?_, ?_, ?_, ?_⟩
  · intro h1 h2; simp [struct_source, h1, h2]
  · intro h1 h2 h3; simp [struct_source, h1, h2, h3]
  · intro h1 h2 h3 h4; simp [struct_source, h1, h2, h3, h4]
  · intro h1 h2 h3 h4; simp [struct_source, h1, h2, h3, h4]
  · intro h1 h2; simp [struct_source, h1, h2]
  · intro h1 h2; simp [enum_source_arm, h1, h2]
  · intro h1 h2; simp [enum_source_arm, h1, h2]
  · intro h1 h2 h3; simp [enum_source_arm, h1, h2, h3]
  · intro h1 h2 h3 h4; simp [enum_source_arm, h1, h2, h3, h4]
  · intro h1 h2 h3 h4; simp [enum_source_arm, h1, h2, h3, h4]

/-- C2 witness: the scenario-1 record (implicit `source` field of
non-`Option` type) yields its source's dyn-error identity, `7` under
`sampleVals`. -/
theorem source_method_semantics_witness :
    struct_source basicStruct sampleVals = some 7 :=
  (source_method_semantics basicStruct attrBtVariant sampleVals msgField
      sourceNamedField).2.1 rfl rfl rfl

/-! ## C5: deferred method emitted iff extra fields exist -/

/-- C5: given a designated causal field, the deferred
`throw_<name>_with` method is emitted exactly when some field of the
record or variant is not the causal one. -/
theorem with_method_iff_extra_fields (fields : List Field) (src : Field)
    (h : source_field fields = some src) :
    with_method_emitted src fields = true ↔ ∃ f ∈ fields, is_source src f = false := by
  unfold with_method_emitted extra_fields
  constructor
  · intro hw
    by_contra hn
    push_neg at hn
    have hnil : fields.filter (fun g => !is_source src g) = [] := by
      rw [List.filter_eq_nil_iff]
      intro g hg
      have := hn g hg
      simp [this]
    rw [hnil] at hw
    simp at hw
  · rintro ⟨g, hg, hgs⟩
    have : g ∈ fields.filter (fun g' => !is_source src g') :=
      List.mem_filter.mpr ⟨hg, by simp [hgs]⟩
    rcases List.exists_cons_of_ne_nil (List.ne_nil_of_mem this) with ⟨a, l, he⟩
    simp [he]

/-- C5 witness: the scenario-1 record has extra fields (`msg`), so the
deferred method is emitted. -/
theorem with_method_witness : with_method_emitted sourceNamedField basicFields = true :=
  (with_method_iff_extra_fields basicFields sourceNamedField rfl).mpr
    ⟨msgField, List.Mem.head _, rfl⟩

/-! ## C6: deferred supply refines eager supply -/

/-- C6: when the supplier returns the same tuple of extra-field values,
the deferred method produces the same result as the eager one (both
apply the same causal-field substitution through `new_struct`); on a
success the supplier is never consulted — the result is the success
value regardless of the supplier. -/
theorem throw_with_refines_throw {α β : Type} (fields : List Field)
    (r : Except α β) (f : Unit → List α) (vs : List α) (hf : f () = vs) :
    throw_with_method fields r f = throw_method fields r vs
    ∧ (∀ (b : β) (g g' : Unit → List α),
        throw_with_method fields (Except.ok b) g
          = (source_field fields).map (fun _ => Except.ok b)
        ∧ throw_with_method fields (Except.ok b) g
          = throw_with_method fields (Except.ok b) g') := by
  constructor
  · unfold throw_with_method throw_method
    rw [hf]
  · intro b g g'
    exact ⟨rfl, rfl⟩

/-- C6 witness: for the scenario-1 record, supplying `[1, 2]` lazily or
eagerly produces identical results on a failing computation. -/
theorem throw_with_refines_witness :
    throw_with_method (α := Nat) (β := Unit) basicFields (Except.error 5)
        (fun _ => [1, 2])
      = throw_method basicFields (Except.error 5) [1, 2] :=
  (throw_with_refines_throw basicFields (Except.error 5) (fun _ => [1, 2]) [1, 2] rfl).1

/-! ## C7: the generated conversion constructor -/

/-- C7: with a field marked `is_from`, the generated conversion takes
one argument of the `Option`-unwrapped declared type, assigns the
argument (wrapped in `Some` exactly when the field's type is `Option`)
to that field, and assigns a freshly captured trace to the backtrace
field exactly when a distinct backtrace field exists (`Some`-wrapped
exactly when that field's type is `Option`). -/
theorem from_impl_semantics (fields : List Field) (ff : Field)
    (h : from_field fields = some ff) :
    from_impl fields
        = some (unoptional_type ff.ty,
            from_initializer ff (distinct_backtrace_field fields))
    ∧ (∀ bt, from_initializer ff (some bt)
        = [(ff.member, if type_is_option ff.ty then InitExpr.someArg else InitExpr.arg),
           (bt.member,
            if type_is_option bt.ty then InitExpr.someCapture else InitExpr.captureFrom)])
    ∧ from_initializer ff none
        = [(ff.member, if type_is_option ff.ty then InitExpr.someArg else InitExpr.arg)] := by
  refine ⟨?_, fun bt => rfl, rfl⟩
  simp [from_impl, h]

/-- C7 witness: a `#[from] source: InnerErr` field next to a distinct
`backtrace` field yields a conversion from `InnerErr` assigning the
argument to `source` and a captured trace to `backtrace`. -/
theorem from_impl_witness :
    from_impl fromAndBtFields
      = some (innerErrTy,
          [(Member.named "source", InitExpr.arg),
           (Member.named "backtrace", InitExpr.captureFrom)]) :=
  (from_impl_semantics fromAndBtFields fromNamedField rfl).1

/-! ## C8: transparent display forwarding -/

/-- C8: a transparent struct's generated `Display` forwards verbatim to
the sole field's own `Display`; a transparent enum variant (validated to
have no template) falls into the template-less arm, which forwards to
its sole field's own `Display` as well. -/
theorem transparent_display_forwards (s : Struct) (v : Variant)
    (fd : Member → String) (f g : Field)
    (hs : s.transparent = true) (hsf : s.fields = [f])
    (hv : v.transparent = true) (hvd : v.display = none) (hvf : v.fields = [g]) :
    struct_display s fd = some (fd f.member)
    ∧ variant_display_arm v fd = some (fd g.member) := by
  constructor
  · simp [struct_display, hs, hsf]
  · simp [variant_display_arm, hvd, hvf]

/-- C8 witness: the scenario-3 transparent record and a transparent
variant both render exactly the inner field's own display output. -/
theorem transparent_display_witness :
    struct_display transparentStruct (fun _ => "inner") = some "inner"
    ∧ variant_display_arm transparentVariant (fun _ => "inner") = some "inner" :=
  transparent_display_forwards transparentStruct transparentVariant (fun _ => "inner")
    { member := Member.unnamed 0, ty := innerErrTy, attrs := noAttrs }
    { member := Member.unnamed 0, ty := innerErrTy, attrs := noAttrs }
    rfl rfl rfl rfl rfl

/-! ## C3: trace provision ordering -/

/-- C3 counterexample: with fields `source: InnerErr` (causal through
the implicit name) and `backtrace: Backtrace` carrying the explicit
backtrace attribute — a record with a backtrace field and a distinct
causal field — the struct path forwards the trace request and then
offers the stored trace, but the enum-variant arm for the same fields
falls through to the offer-only arm (expand.rs lines 424-442) because
the backtrace field carries the explicit attribute: no forward to the
causal field's provision occurs. -/
theorem provide_forward_counterexample :
    source_field srcAndAttrBtFields = some sourceNamedField
    ∧ backtrace_field srcAndAttrBtFields = some btNamedField
    ∧ sourceNamedField.member ≠ btNamedField.member
    ∧ struct_provide srcAndAttrBtFields sampleVals
        = [ProvideEvent.forwarded (Member.named "source"),
           ProvideEvent.offered (Member.named "backtrace")]
    ∧ enum_provide_arm attrBtVariant sampleVals
        = [ProvideEvent.offered (Member.named "backtrace")] :=
  ⟨rfl, rfl, by decide, rfl, rfl⟩

/-- C3 (amended): for a struct, a backtrace field with a distinct causal
field forwards the trace request to the causal field's provision and
then separately offers the stored trace, and a backtrace field that is
itself the causal member only forwards; each step is skipped when the
corresponding field is `Option`-typed and absent.  For an enum variant
the same holds only when the backtrace field carries no explicit
backtrace attribute (forward then offer) or is the causal member under
an explicit attribute (forward only); a variant whose backtrace field
carries the explicit attribute while the causal field is distinct only
offers the stored trace and performs no forward.  In the enum arms just
as in the struct body, a forward or offer step is skipped when the
corresponding field is `Option`-typed and absent (expand.rs lines
367-372, 378-383, 406-411, 426-431). -/
theorem provide_semantics (fields : List Field) (v : Variant) (vals : Valuation)
    (bt src : Field) :
    (backtrace_field fields = some bt → source_field fields = some src →
      src.member ≠ bt.member →
      type_is_option src.ty = false → type_is_option bt.ty = false →
      struct_provide fields vals
        = [ProvideEvent.forwarded src.member, ProvideEvent.offered bt.member])
    ∧ (backtrace_field fields = some bt → source_field fields = some src →
        src.member = bt.member → type_is_option src.ty = false →
        struct_provide fields vals = [ProvideEvent.forwarded src.member])
    ∧ (backtrace_field fields = some bt → source_field fields = some src →
        src.member ≠ bt.member →
        type_is_option src.ty = true → vals.isSomeAt src.member = false →
        type_is_option bt.ty = false →
        struct_provide fields vals = [ProvideEvent.offered bt.member])
    ∧ (backtrace_field fields = some bt → source_field fields = some src →
        src.member ≠ bt.member → type_is_option src.ty = false →
        type_is_option bt.ty = true → vals.isSomeAt bt.member = false →
        struct_provide fields vals = [ProvideEvent.forwarded src.member])
    ∧ (backtrace_field v.fields = some bt → source_field v.fields = some src →
        bt.attrs.backtraceAttr = false →
        type_is_option src.ty = false → type_is_option bt.ty = false →
        enum_provide_arm v vals
          = [ProvideEvent.forwarded src.member, ProvideEvent.offered bt.member])
    ∧ (backtrace_field v.fields = some bt → source_field v.fields = some src →
        bt.attrs.backtraceAttr = true → bt.member = src.member →
        type_is_option src.ty = false →
        enum_provide_arm v vals = [ProvideEvent.forwarded src.member])
    ∧ (backtrace_field v.fields = some bt → source_field v.fields = some src →
        bt.attrs.backtraceAttr = true → bt.member ≠ src.member →
        type_is_option bt.ty = false →
        enum_provide_arm v vals = [ProvideEvent.offered bt.member])
    ∧ (backtrace_field v.fields = some bt → source_field v.fields = some src →
        bt.attrs.backtraceAttr = false →
        type_is_option src.ty = true → vals.isSomeAt src.member = false →
        type_is_option bt.ty = false →
        enum_provide_arm v vals = [ProvideEvent.offered bt.member])
    ∧ (backtrace_field v.fields = some bt → source_field v.fields = some src →
        bt.attrs.backtraceAttr = false → type_is_option src.ty = false →
        type_is_option bt.ty = true → vals.isSomeAt bt.member = false →
        enum_provide_arm v vals = [ProvideEvent.forwarded src.member])
    ∧ (backtrace_field v.fields = some bt → source_field v.fields = some src →
        bt.attrs.backtraceAttr = true → bt.member = src.member →
        type_is_option src.ty = true → vals.isSomeAt src.member = false →
        enum_provide_arm v vals = [])
    ∧ (backtrace_field v.fields = some bt → source_field v.fields = some src →
        bt.attrs.backtraceAttr = true → bt.member ≠ src.member →
        type_is_option bt.ty = true → vals.isSomeAt bt.member = false →
        enum_provide_arm v vals = []) := by
  refine ⟨?_, ?_, ?_, ?_, ?_, ?_, ?_, ?_, ?_, ?_, ?_⟩
  · intro h1 h2 h3 h4 h5
    simp [struct_provide, h1, h2, h3, source_provide_events, backtrace_offer_events, h4, h5]
  · intro h1 h2 h3 h4
    simp [struct_provide, h1, h2, h3, source_provide_events, h4]
  · intro h1 h2 h3 h4 h5 h6
    simp [struct_provide, h1, h2, h3, source_provide_events, backtrace_offer_events,
      h4, h5, h6]
  · intro h1 h2 h3 h4 h5 h6
    simp [struct_provide, h1, h2, h3, source_provide_events, backtrace_offer_events,
      h4, h5, h6]
  · intro h1 h2 h3 h4 h5
    simp [enum_provide_arm, h1, h2, h3, source_provide_events, backtrace_offer_events,
      h4, h5]
  · intro h1 h2 h3 h4 h5
    simp [enum_provide_arm, h1, h2, h3, h4, source_provide_events, h5]
  · intro h1 h2 h3 h4 h5
    simp [enum_provide_arm, h1, h2, h3, h4, backtrace_offer_events, h5]
  · intro h1 h2 h3 h4 h5 h6
    simp [enum_provide_arm, h1, h2, h3, source_provide_events, backtrace_offer_events,
      h4, h5, h6]
  · intro h1 h2 h3 h4 h5 h6
    simp [enum_provide_arm, h1, h2, h3, source_provide_events, backtrace_offer_events,
      h4, h5, h6]
  · intro h1 h2 h3 h4 h5 h6
    simp [enum_provide_arm, h1, h2, h3, h4, source_provide_events, h5, h6]
  · intro h1 h2 h3 h4 h5 h6
    simp [enum_provide_arm, h1, h2, h3, h4, backtrace_offer_events, h5, h6]

/-- C3 witness: the struct path on `source`/`backtrace` fields forwards
then offers; the enum arm for a variant with an attribute-free (type
recognized) backtrace field also forwards then offers. -/
theorem provide_semantics_witness :
    struct_provide srcAndAttrBtFields sampleVals
      = [ProvideEvent.forwarded (Member.named "source"),
         ProvideEvent.offered (Member.named "backtrace")] :=
  (provide_semantics srcAndAttrBtFields attrBtVariant sampleVals btNamedField
      sourceNamedField).1 rfl rfl (by decide) rfl rfl

/-! ## C1: the eager throw method -/

/-- A designated causal field carries a causal attribute or bears the
implicit name `source`. -/
theorem source_field_attrs_or_named (fields : List Field) (src : Field)
    (h : source_field fields = some src) :
    (src.attrs.fromAttr || src.attrs.sourceAttr) = true
      ∨ src.member = Member.named "source" := by
  unfold source_field at h
  cases hf : fields.find? (fun f => f.attrs.fromAttr || f.attrs.sourceAttr) with
  | some f =>
    rw [hf] at h
    dsimp only at h
    have hfs : f = src := by injection h
    subst hfs
    have hp := List.find?_some hf
    exact Or.inl (by simpa using hp)
  | none =>
    rw [hf] at h
    dsimp only at h
    have hp := List.find?_some h
    exact Or.inr (by simpa using hp)

/-- The designated causal field satisfies the expander's `is_source`
test against itself. -/
theorem is_source_self (fields : List Field) (src : Field)
    (h : source_field fields = some src) : is_source src src = true := by
  rcases source_field_attrs_or_named fields src h with ha | hn
  · simp [is_source, ha]
  · by_cases hb : (src.attrs.fromAttr || src.attrs.sourceAttr) = true
    · simp [is_source, hb]
    · simp [is_source, hb, hn]

/-- When the head of the field list is the causal field and no other
field passes the `is_source` test, the extra fields are exactly the
tail. -/
theorem extra_fields_eq_tail (src : Field) (rest : List Field)
    (hself : is_source src src = true)
    (hrest : ∀ f ∈ rest, is_source src f = false) :
    extra_fields src (src :: rest) = rest := by
  unfold extra_fields
  rw [List.filter_cons_of_neg]
  · exact List.filter_eq_self.mpr (fun f hf => by simp [hrest f hf])
  · simp [hself]

/-- C1 counterexample: for the tuple fields `(String, #[source]
InnerErr)` — causal field declared second — the generated positional
construction `#ty (e, #fields)` places the failure value `10` at
position 0, so the causal field (position 1) receives the supplied
extra argument `20` instead of the failure value. -/
theorem throw_eager_counterexample :
    source_field tupleSwappedFields
        = some { member := Member.unnamed 1, ty := innerErrTy, attrs := sourceOnlyAttrs }
    ∧ throw_method (α := Nat) (β := Unit) tupleSwappedFields (Except.error 10) [20]
        = some (Except.error (Constructed.positional [10, 20]))
    ∧ (Constructed.positional ([10, 20] : List Nat)).getMember (Member.unnamed 1)
        = some 20
    ∧ (20 : Nat) ≠ 10 :=
  ⟨rfl, rfl, rfl, by decide⟩

/-- C1 (amended): on a failure the eager method constructs the enclosing
type (or variant) with the causal field set to the failure value and
each extra field set from the supplied argument at the same index in
declaration order excluding the causal field, PROVIDED the fields are
named, or positional with the causal field declared first; in the
positional shape the failure value always occupies position 0, so a
causal field declared at a later position would instead receive an extra
argument (the counterexample).  On a success the value passes through
unchanged. -/
theorem throw_eager_constructs {α β : Type} (fields : List Field) (src : Field)
    (e : α) (vs : List α) (b : β) (hsf : source_field fields = some src) :
    (∀ n, src.member = Member.named n →
      ((extra_fields src fields).map Field.member).Nodup →
      src.member ∉ (extra_fields src fields).map Field.member →
      vs.length = (extra_fields src fields).length →
      throw_method fields (Except.error e : Except α β) vs
          = some (Except.error (new_struct src fields e vs))
        ∧ (new_struct src fields e vs).getMember src.member = some e
        ∧ (∀ j m, ((extra_fields src fields).map Field.member).get? j = some m →
            (new_struct src fields e vs).getMember m = vs.get? j))
    ∧ (src.member = Member.unnamed 0 → fields.head? = some src →
      (∀ f ∈ fields.tail, is_source src f = false) →
      (∀ j (hj : j < fields.length), (fields.get ⟨j, hj⟩).member = Member.unnamed j) →
      throw_method fields (Except.error e : Except α β) vs
          = some (Except.error (new_struct src fields e vs))
        ∧ (new_struct src fields e vs).getMember (Member.unnamed 0) = some e
        ∧ (∀ j m, ((extra_fields src fields).map Field.member).get? j = some m →
            (new_struct src fields e vs).getMember m = vs.get? j))
    ∧ throw_method fields (Except.ok b) vs = some (Except.ok b) := by
  refine ⟨?_, ?_, ?_⟩
  · intro n hn hnodup hnotmem hlen
    have hnew : new_struct src fields e vs
        = Constructed.named ((src.member, e) ::
            ((extra_fields src fields).map Field.member).zip vs) := by
      simp [new_struct, hn]
    refine ⟨by unfold throw_method; rw [hsf]; rfl, ?_, ?_⟩
    · rw [hnew]
      simp [Constructed.getMember, List.find?]
    · intro j m hm
      rw [hnew]
      have hne : src.member ≠ m := fun he => hnotmem (he ▸ List.get?_mem hm)
      show (((src.member, e) ::
          ((extra_fields src fields).map Field.member).zip vs).find?
            (fun p => decide (p.1 = m))).map (fun p => p.2) = vs.get? j
      rw [List.find?_cons_of_neg]
      · exact find_zip_eq_get _ vs hnodup (by rw [List.length_map]; exact hlen) j m hm
      · simp [hne]
  · intro hu hhead hrest hidx
    cases fields with
    | nil => simp at hhead
    | cons a rest =>
      have ha : a = src := by simpa using hhead
      subst ha
      have hself : is_source a a = true := is_source_self _ a hsf
      have hex : extra_fields a (a :: rest) = rest :=
        extra_fields_eq_tail a rest hself (by simpa using hrest)
      have hnew : new_struct a (a :: rest) e vs = Constructed.positional (e :: vs) := by
        simp [new_struct, hu]
      refine ⟨by unfold throw_method; rw [hsf]; rfl, ?_, ?_⟩
      · rw [hnew]
        rfl
      · intro j m hm
        rw [hex] at hm
        have hjl : j < rest.length := by
          have := List.get?_eq_some.mp hm
          simpa using this.1
        have hm' : m = (rest.get ⟨j, hjl⟩).member := by
          rw [List.get?_map, List.get?_eq_get hjl] at hm
          simpa using hm.symm
        have hidx' : (rest.get ⟨j, hjl⟩).member = Member.unnamed (j + 1) := by
          have := hidx (j + 1) (by simpa using Nat.succ_lt_succ hjl)
          simpa using this
        rw [hnew, hm', hidx']
        rfl
  · unfold throw_method
    rw [hsf]
    rfl

/-- C1 witness: the scenario-1 record maps a failure `9` with arguments
`[1, 2]` to a constructed value whose `source` member holds `9`, and
whose `msg` member (first extra field) holds `1`. -/
theorem throw_eager_witness :
    throw_method (α := Nat) (β := Unit) basicFields (Except.error 9) [1, 2]
        = some (Except.error (new_struct sourceNamedField basicFields 9 [1, 2]))
    ∧ (new_struct sourceNamedField basicFields (9 : Nat) [1, 2]).getMember
        (Member.named "source") = some 9
    ∧ (new_struct sourceNamedField basicFields (9 : Nat) [1, 2]).getMember
        (Member.named "msg") = some 1 := by
  have h := (throw_eager_constructs basicFields sourceNamedField (9 : Nat) [1, 2] ()
      rfl).1 "source" rfl (by decide) (by decide) rfl
  exact ⟨h.1, h.2.1, h.2.2 0 (Member.named "msg") rfl⟩

end Naur
